import Mathlib

/-! Shallow embedding of `src/shell/src/core.py`, the bayeslite interactive
shell: session state, the meta-command registry, line dispatch (including the
behavior of Python 2.7's `cmd.Cmd` base class that the code relies on: its
`parseline`/`onecmd`/`emptyline` machinery and its `cmdloop` read loop), the
statement accumulator, and the outer command loop `Shell.cmdloop`.

External collaborators (`bayeslite`, `bayeslite.core`, `bayeslite.parse`,
`bayeslite.shell.pretty`, the file system reached through them) are modelled
as an abstract `World` of oracles.  Each collaborator call either returns
normally (carrying the text the call printed to stdout, empty if none),
raises an ordinary exception (Python 2 `Exception`, carrying the
`traceback.format_exc()` text), or raises `KeyboardInterrupt` -- which in
Python 2.7 is NOT a subclass of `Exception`, so the handlers' broad
`except Exception:` clauses do not catch it. -/

namespace BayesliteShell

/-! Python string primitives used by the shell and by `cmd.Cmd`. -/

/-- Characters Python 2 `str.strip()` / `str.split()` treat as whitespace. -/
def pyWS (c : Char) : Bool :=
  c == ' ' || c == '\t' || c == '\n' || c == '\r' || c == '\x0b' || c == '\x0c'

/-- Strip `pyWS` characters from both ends of a character list. -/
def stripList (cs : List Char) : List Char :=
  ((cs.dropWhile pyWS).reverse.dropWhile pyWS).reverse

/-- Python `str.strip()` with no arguments. -/
def pyStrip (s : String) : String := ⟨stripList s.data⟩

/-- Worker for `pySplit`: `acc` holds the reversed characters of the token
in progress. -/
def pySplitAux : List Char → List Char → List String
  | [], acc => if acc = [] then [] else [⟨acc.reverse⟩]
  | c :: cs, acc =>
    if pyWS c then
      if acc = [] then pySplitAux cs []
      else (⟨acc.reverse⟩ : String) :: pySplitAux cs []
    else pySplitAux cs (c :: acc)

/-- Python `str.split()` with no arguments: the maximal whitespace-free
runs, in order -- no empty tokens. -/
def pySplit (s : String) : List String := pySplitAux s.data []

/-- Python `repr` of a string as used in the shell's error messages: the
string wrapped in single quotes.  (Python would additionally escape special
characters; no message under study needs that.) -/
def pyRepr (s : String) : String := "\x27" ++ s ++ "\x27"

/-- Python `int(token)`: optional surrounding whitespace, an optional sign,
then decimal digits; raises `ValueError` (here: `none`) otherwise. -/
def pyInt (s : String) : Option Int :=
  let digitsVal : List Char → Nat :=
    fun ds => ds.foldl (fun a c => a * 10 + (c.toNat - 48)) 0
  let core : List Char → Bool → Option Int := fun ds neg =>
    if ds ≠ [] ∧ ds.all Char.isDigit then
      some (if neg then -(digitsVal ds : Int) else (digitsVal ds : Int))
    else none
  match (pyStrip s).data with
  | '+' :: ds => core ds false
  | '-' :: ds => core ds true
  | ds => core ds false

/-- Models `cmd.Cmd.identchars` after `Shell.__init__` ran `self.identchars += '.'`:
ASCII letters, digits, underscore, and the meta-command sentinel dot. -/
def identchars (c : Char) : Bool :=
  c.isAlpha || c.isDigit || c == '_' || c == '.'

/-! The collaborator boundary. -/

/-- Result of one collaborator call, seen from the shell. -/
inductive CallRes where
  /-- Normal return; `output` is the text the call wrote to stdout
  (for example via `pretty.pp_cursor`), empty when it wrote nothing. -/
  | ok (output : String)
  /-- The call raised an ordinary Python 2 `Exception`; `diag` is the
  `traceback.format_exc()` text a surrounding handler would print. -/
  | exn (diag : String)
  /-- The call raised `KeyboardInterrupt`, which `except Exception:` does
  not catch in Python 2.7. -/
  | kbint
  deriving DecidableEq, Repr

/-- The external collaborators, one oracle per call the shell makes.
`execute` models the whole `self._bdb.execute(bql)` / `with savepoint:` /
`pretty.pp_cursor` block of `Shell.default` as one call, and likewise
`sql_execute` models `pp_cursor(self._bdb.sql_execute(line))`; savepoint
scoping has no effect on session state and is not modelled separately.
The pure predicates (`bayesdb_has_table` etc.) are modelled as
non-raising boolean oracles. -/
structure World where
  bql_string_complete_p : String → Bool
  execute : String → CallRes
  sql_execute : String → CallRes
  py_eval : String → CallRes
  read_csv : String → String → CallRes
  load_codebook : String → String → CallRes
  load_models : String → String → String → CallRes
  has_table : String → Bool
  has_generator : String → Bool
  get_generator : String → Int
  generator_has_model : Int → Int → Bool
  execute_q : String → List String → CallRes
  sql_execute_q : String → List Int → CallRes
  guarantee_columns : String → CallRes

/-- Observable events: writes to the shell's stdout and calls across the
collaborator boundary. -/
inductive Ev where
  | out (s : String)
  /-- Models `self._bdb.execute(bql)` from `Shell.default`. -/
  | execute (q : String)
  /-- Models `self._bdb.sql_execute(line)` from `Shell.dot_sql`. -/
  | sql_execute (q : String)
  /-- Models `eval(line, ...)` from `Shell.dot_python`. -/
  | py_eval (e : String)
  /-- Models `self._bdb.trace(self._trace)` -- BQL trace subscription. -/
  | trace_on
  /-- Models `self._bdb.untrace(self._trace)`. -/
  | trace_off
  /-- Models `self._bdb.sql_trace(self._sql_trace)` -- SQL trace subscription. -/
  | sql_trace_on
  /-- Models `self._bdb.sql_untrace(self._sql_trace)`. -/
  | sql_trace_off
  /-- Models `bayeslite.bayesdb_read_csv(...)` (with the `open` of the file). -/
  | read_csv (table path : String)
  | load_codebook (table path : String)
  | load_models (generator table path : String)
  /-- Models `self._bdb.execute(sql, params)` inside `Shell.dot_describe`. -/
  | execute_q (q : String) (params : List String)
  /-- Models `self._bdb.sql_execute(sql, (generator_id,))` inside `dot_describe`. -/
  | sql_execute_q (q : String) (params : List Int)
  | guarantee_columns (table : String)
  /-- Output of the base class `cmd.Cmd.do_help` (reached by a line such as
  `help`, without the dot), abstracted: its text depends only on `arg`. -/
  | base_help (arg : String)
  deriving DecidableEq, Repr

/-! Session state. -/

def def_prompt : String := "bayeslite> "
def bql_prompt : String := "   bql...> "
def sql_prompt : String := "   sql...> "
def python_prompt : String := "python...> "

/-- The mutable session state of one `Shell` instance: the active prompt,
the pending BQL buffer (`self.bql`, a `StringIO`, modelled by its
`getvalue()` string), the installed command-name set `self._cmds` (modelled
as its insertion-ordered duplicate-free list), the two trace flags, and
`cmd.Cmd.lastcmd` (used by `emptyline` to repeat the last command). -/
structure Shell where
  prompt : String
  bql : String
  cmds : List String
  traced : Bool
  sql_traced : Bool
  lastcmd : String
  deriving DecidableEq, Repr

/-- Models `Shell._installcmd`: asserts the name is fresh (both asserts -- the
missing `do_.name` attribute and `name not in self._cmds` -- coincide, since
the attributes are set exactly for installed names), then registers it.
A failed assert is a fatal configuration error, modelled as `none`. -/
def Shell._installcmd (cmds : List String) (name : String) : Option (List String) :=
  if name ∈ cmds then none else some (cmds ++ [name])

/-- The command names `Shell.__init__` installs, in declaration order. -/
def initCmdList : List String :=
  ["codebook", "csv", "describe", "help", "loadmodels", "python", "sql",
   "trace", "untrace"]

/-- Run `Shell._installcmd` over a list of names. -/
def installAll (cmds : List String) : List String → Option (List String)
  | [] => some cmds
  | n :: rest =>
    match Shell._installcmd cmds n with
    | none => none
    | some cmds' => installAll cmds' rest

/-- The registry after `Shell.__init__` (all asserts pass). -/
def initCmds : List String := (installAll [] initCmdList).getD []

/-- Session state as `Shell.__init__` leaves it. -/
def initShell : Shell :=
  { prompt := def_prompt, bql := "", cmds := initCmds,
    traced := false, sql_traced := false, lastcmd := "" }

/-- How one dispatched line finishes: a normal Python return (`stop` is the
truthiness of the returned value, which `cmd.Cmd.cmdloop` uses as its loop
exit flag), an ordinary exception propagating out (it would escape
`Shell.cmdloop` and kill the session), or a propagating
`KeyboardInterrupt` (caught by `Shell.cmdloop`). -/
inductive Outcome where
  | ret (stop : Bool)
  | exc (diag : String)
  | kbint
  deriving DecidableEq, Repr

/-- Result of dispatching one line: the outcome, the session state as the
mutations so far left it, and the observable events in order. -/
structure DResult where
  res : Outcome
  state : Shell
  evs : List Ev
  deriving DecidableEq, Repr

/-! Meta-command handlers.  Python return-value convention: a handler that
returns `False` or falls off the end (returning `None`) leaves the loop
running; only a truthy return stops it.  Handlers that never assign to any
`self` attribute are embedded as functions producing only their observable
events (and, where a collaborator call can raise past them, the propagating
outcome). -/

/-- Each installed handler's docstring, split into lines and stripped, as
`Shell.dot_help` computes it (`[line.strip() for line in
method.__doc__.splitlines()]`).  Transcribed from the source docstrings. -/
def docLines (c : String) : List String :=
  if c = "codebook" then
    ["load codebook for table", "<table> </path/to/codebook.csv>", "",
     "Load a codebook -- short names, descriptions, and value",
     "descriptions for the columns of a table -- from a CSV file.", ""]
  else if c = "csv" then
    ["create table from CSV file", "<table> </path/to/data.csv>", "",
     "Create a SQL table named <table> from the data in",
     "</path/to/data.csv>.", ""]
  else if c = "describe" then
    ["describe BayesDB entities",
     "[table(s)|generator(s)|columns|model(s)] [<name>...]", "",
     "Print a human-readable description of the specified BayesDB",
     "entities.", ""]
  else if c = "help" then
    ["show help for commands", "[<cmd> ...]", "",
     "Show help for commands.  With no arguments, list all commands.", ""]
  else if c = "loadmodels" then
    ["load legacy models", "<generator> <table> </path/to/models.pkl.gz>", "",
     "Create a Crosscat generator named <generator> for the table",
     "<table> from the legacy models stored in",
     "</path/to/models.pkl.gz>.", ""]
  else if c = "python" then
    ["evaluate a Python expression", "<expression>", "",
     "Evaluate a Python expression in the underlying Python",
     "interpreter.", "",
     "`bdb\x27 is bound to the BayesDB instance.", ""]
  else if c = "sql" then
    ["execute a SQL query", "<query>", "",
     "Execute a SQL query on the underlying SQLite database.", ""]
  else if c = "trace" then
    ["trace queries", "[bql|sql]", "",
     "Trace BQL or SQL queries executed in the database.",
     "Use `.untrace\x27 to undo.", ""]
  else if c = "untrace" then
    ["untrace queries", "[bql|sql]", "",
     "Untrace BQL or SQL queries executed in the database after",
     "`.trace\x27 traced them.", ""]
  else []

/-- Python 2 `str` comparison: lexicographic by character code points --
the order of the underlying character lists. -/
def pyStrLe (a b : String) : Prop := a.data ≤ b.data

instance : DecidableRel pyStrLe :=
  fun a b => inferInstanceAs (Decidable (a.data ≤ b.data))

instance : IsTotal String pyStrLe := ⟨fun a b => le_total a.data b.data⟩

instance : IsTrans String pyStrLe :=
  ⟨fun _ _ _ hab hbc => le_trans hab hbc⟩

instance : IsAntisymm String pyStrLe :=
  ⟨fun _ _ h1 h2 => String.ext (le_antisymm h1 h2)⟩

/-- Models `sorted(self._cmds)`: the registered names in ascending lexicographic
(code-point) order, as Python `sorted` produces on a set of `str`. -/
def sortedCmdNames (cmds : List String) : List String :=
  List.insertionSort pyStrLe cmds

/-- Models `pad = max(1 + len(cmd) for cmd in self._cmds)` (the registry is never
empty when `dot_help` runs; on an empty registry Python would raise, here
the fold returns 0). -/
def maxPad (cmds : List String) : Nat :=
  (cmds.map (fun c => 1 + c.length)).foldl Nat.max 0

/-- Python `'%*s' % (w, s)`: right-justify `s` in a field of width `w`. -/
def rjust (w : Nat) (s : String) : String :=
  (⟨List.replicate (w - s.length) ' '⟩ : String) ++ s

/-- One line of the `.help` listing:
`' %*s    %s\n' % (pad, '.' + cmd, doc[0])`. -/
def helpListLine (pad : Nat) (c : String) : String :=
  " " ++ rjust pad ("." ++ c) ++ "    " ++ (docLines c).headD "" ++ "\n"

/-- The closing line of the `.help` listing. -/
def helpFooter : String :=
  "Type `.help <cmd>\x27 for help on the command <cmd>.\n"

/-- The per-token loop of `dot_help`'s second branch: print extended usage
for each named command, stopping at (and reporting) the first unknown name.
The `hasattr(self, 'do_.%s' % cmd)` test is registry membership. -/
def helpEach (cmds : List String) : List String → List Ev
  | [] => []
  | c :: rest =>
    if c ∈ cmds then
      Ev.out ("." ++ c ++ " " ++ String.intercalate "\n" (docLines c).tail)
        :: helpEach cmds rest
    else
      [Ev.out ("No such command " ++ pyRepr c ++ ".\n")]

/-- Models `Shell.dot_help`.  The `assert 1 < len(doc)` in the source holds for
every installed command (each docstring has at least two lines). -/
def Shell.dot_help (cmds : List String) (line : String) : List Ev :=
  let tokens := pySplit line
  if tokens = [] then
    let pad := maxPad cmds
    ((sortedCmdNames cmds).map (fun c => Ev.out (helpListLine pad c)))
      ++ [Ev.out helpFooter]
  else
    helpEach cmds tokens

/-- Models `Shell.dot_sql`: one collaborator call in a `try/except Exception`
boundary; an ordinary failure prints the traceback, an interrupt escapes.
Returns `False` on the normal path. -/
def Shell.dot_sql (w : World) (line : String) : Outcome × List Ev :=
  match w.sql_execute line with
  | .ok o => (.ret false, [Ev.sql_execute line, Ev.out o])
  | .exn d => (.ret false, [Ev.sql_execute line, Ev.out d])
  | .kbint => (.kbint, [Ev.sql_execute line])

/-- Models `Shell.dot_python`: `eval` the expression and print `repr(value)`; the
`ok` payload of the oracle is that `repr` text. -/
def Shell.dot_python (w : World) (line : String) : Outcome × List Ev :=
  match w.py_eval line with
  | .ok r => (.ret false, [Ev.py_eval line, Ev.out (r ++ "\n")])
  | .exn d => (.ret false, [Ev.py_eval line, Ev.out d])
  | .kbint => (.kbint, [Ev.py_eval line])

/-- Models `Shell.dot_trace`: subscribe the matching tracer unless its flag is
already set; any other argument only asks what to trace.  The subscription
call itself is modelled as non-raising. -/
def Shell.dot_trace (s : Shell) (line : String) : Shell × List Ev :=
  if line = "bql" then
    if s.traced = false then ({ s with traced := true }, [Ev.trace_on])
    else (s, [])
  else if line = "sql" then
    if s.sql_traced = false then
      ({ s with sql_traced := true }, [Ev.sql_trace_on])
    else (s, [])
  else
    (s, [Ev.out "Trace what?\n"])

/-- Models `Shell.dot_untrace`: the mirror image of `dot_trace`. -/
def Shell.dot_untrace (s : Shell) (line : String) : Shell × List Ev :=
  if line = "bql" then
    if s.traced = true then ({ s with traced := false }, [Ev.trace_off])
    else (s, [])
  else if line = "sql" then
    if s.sql_traced = true then
      ({ s with sql_traced := false }, [Ev.sql_trace_off])
    else (s, [])
  else
    (s, [Ev.out "Untrace what?\n"])

/-- Models `Shell.dot_csv`: two tokens or a usage message; the load runs inside
`try/except Exception`. -/
def Shell.dot_csv (w : World) (line : String) : Outcome × List Ev :=
  match pySplit line with
  | [table, pathname] =>
    match w.read_csv table pathname with
    | .ok _ => (.ret false, [Ev.read_csv table pathname])
    | .exn d => (.ret false, [Ev.read_csv table pathname, Ev.out d])
    | .kbint => (.kbint, [Ev.read_csv table pathname])
  | _ => (.ret false, [Ev.out "Usage: .csv <table> </path/to/data.csv>\n"])

/-- Models `Shell.dot_codebook`. -/
def Shell.dot_codebook (w : World) (line : String) : Outcome × List Ev :=
  match pySplit line with
  | [table, pathname] =>
    match w.load_codebook table pathname with
    | .ok _ => (.ret false, [Ev.load_codebook table pathname])
    | .exn d => (.ret false, [Ev.load_codebook table pathname, Ev.out d])
    | .kbint => (.kbint, [Ev.load_codebook table pathname])
  | _ =>
    (.ret false, [Ev.out "Usage: .codebook <table> </path/to/codebook.csv>\n"])

/-- Models `Shell.dot_loadmodels`. -/
def Shell.dot_loadmodels (w : World) (line : String) : Outcome × List Ev :=
  match pySplit line with
  | [generator, table, pathname] =>
    match w.load_models generator table pathname with
    | .ok _ => (.ret false, [Ev.load_models generator table pathname])
    | .exn d =>
      (.ret false, [Ev.load_models generator table pathname, Ev.out d])
    | .kbint => (.kbint, [Ev.load_models generator table pathname])
  | _ =>
    (.ret false,
     [Ev.out "Usage: .loadmodels <generator> <table> </path/to/models.pkl.gz>\n"])

/-- Modelled from the spec: `bayeslite.util.casefold` (the module is not
under `src/`), the case-normalization the spec's describe table applies to
its first token before comparing against `table(s)|generator(s)|columns|
model(s)`; modelled as ASCII lowercasing. -/
def casefold (s : String) : String := s.toLower

/-- Control flow of a straight-line handler body that may raise. -/
inductive Flow where
  | done
  | exc (diag : String)
  | kbint
  deriving DecidableEq, Repr

/-- The `for table in params: core.bayesdb_table_guarantee_columns(...)`
loop of `dot_describe`; the calls are not inside any `try`, so a raise
propagates immediately. -/
def guaranteeAll (w : World) : List String → List Ev × Flow
  | [] => ([], .done)
  | t :: rest =>
    match w.guarantee_columns t with
    | .ok _ =>
      let (evs, f) := guaranteeAll w rest
      (Ev.guarantee_columns t :: evs, f)
    | .exn d => ([Ev.guarantee_columns t], .exc d)
    | .kbint => ([Ev.guarantee_columns t], .kbint)

/-- Final `with savepoint: pp_cursor(execute(sql, params))` of the
table/generator branches; not inside `try`, so a raise propagates. -/
def describeRunQ (w : World) (sql : String) (params : List String) :
    Outcome × List Ev :=
  match w.execute_q sql params with
  | .ok o => (.ret false, [Ev.execute_q sql params, Ev.out o])
  | .exn d => (.exc d, [Ev.execute_q sql params])
  | .kbint => (.kbint, [Ev.execute_q sql params])

/-- Models `sql_execute(sql, (generator_id,))` plus `pp_cursor` in the
columns/models branches; not inside `try`. -/
def describeRunSqlQ (w : World) (sql : String) (gid : Int) :
    Outcome × List Ev :=
  match w.sql_execute_q sql [gid] with
  | .ok o => (.ret false, [Ev.sql_execute_q sql [gid], Ev.out o])
  | .exn d => (.exc d, [Ev.sql_execute_q sql [gid]])
  | .kbint => (.kbint, [Ev.sql_execute_q sql [gid]])

/-- The tables SQL template of `dot_describe` (a Python triple-quoted
string with `%s` filled by the qualifier). -/
def tablesSql (qualifier : String) : String :=
  "\n                SELECT tabname, colno, name, shortname\n                    FROM bayesdb_column\n                    WHERE " ++ qualifier ++ "\n                    ORDER BY tabname ASC, colno ASC\n            "

def generatorsSql (qualifier : String) : String :=
  "\n                SELECT id, name, tabname, metamodel\n                    FROM bayesdb_generator\n                    WHERE " ++ qualifier ++ "\n            "

def columnsSql : String :=
  "\n                    SELECT c.colno AS colno, c.name AS name,\n                            gc.stattype AS stattype, c.shortname AS shortname\n                        FROM bayesdb_generator AS g,\n                            (bayesdb_column AS c LEFT OUTER JOIN\n                                bayesdb_generator_column AS gc\n                                USING (colno))\n                        WHERE g.id = ? AND g.id = gc.generator_id\n                "

def modelsSql (qualifier : String) : String :=
  "\n                    SELECT modelno, iterations FROM bayesdb_generator_model\n                        WHERE generator_id = ? AND " ++ qualifier ++ "\n                "

/-- The `table`/`tables` branch of `dot_describe`. -/
def describeTables (w : World) (rest : List String) : Outcome × List Ev :=
  if rest = [] then
    describeRunQ w (tablesSql "1") []
  else
    let params := rest
    let qualifier :=
      "(" ++ String.intercalate " OR " (params.map (fun _ => "tabname = ?"))
        ++ ")"
    let errs := (params.filter (fun t => ¬ w.has_table t)).map
      (fun t => Ev.out ("No such table: " ++ pyRepr t ++ "\n"))
    if params.all (fun t => w.has_table t) then
      match guaranteeAll w params with
      | (evs, .done) =>
        let (o, evs') := describeRunQ w (tablesSql qualifier) params
        (o, evs ++ evs')
      | (evs, .exc d) => (.exc d, evs)
      | (evs, .kbint) => (.kbint, evs)
    else
      (.ret false, errs)

/-- The `generator`/`generators` branch of `dot_describe`. -/
def describeGenerators (w : World) (rest : List String) : Outcome × List Ev :=
  if rest = [] then
    describeRunQ w (generatorsSql "1") []
  else
    let params := rest
    let qualifier :=
      "(" ++ String.intercalate " OR " (params.map (fun _ => "name = ?"))
        ++ ")"
    let errs := (params.filter (fun g => ¬ w.has_generator g)).map
      (fun g => Ev.out ("No such generator: " ++ pyRepr g ++ "\n"))
    if params.all (fun g => w.has_generator g) then
      describeRunQ w (generatorsSql qualifier) params
    else
      (.ret false, errs)

/-- The `columns` branch of `dot_describe` (`len(tokens) != 2` counts the
leading `columns` token, so exactly one generator name is accepted). -/
def describeColumns (w : World) (rest : List String) : Outcome × List Ev :=
  match rest with
  | [generator] =>
    if w.has_generator generator then
      describeRunSqlQ w columnsSql (w.get_generator generator)
    else
      (.ret false, [Ev.out ("No such generator: " ++ generator ++ "\n")])
  | _ => (.ret false, [Ev.out "Describe columns of what generator?\n"])

/-- The `for token in tokens[2:]` loop of the `models` branch: parse each
as an int and check the model exists, with an early error return. -/
def buildModelnos (w : World) (gid : Int) : List String → Sum (List Int) Ev
  | [] => .inl []
  | tok :: rest =>
    match pyInt tok with
    | none => .inr (Ev.out ("Invalid model number: " ++ tok ++ "\n"))
    | some modelno =>
      if w.generator_has_model gid modelno then
        match buildModelnos w gid rest with
        | .inl ms => .inl (modelno :: ms)
        | .inr e => .inr e
      else
        .inr (Ev.out ("No such model: " ++ toString modelno ++ "\n"))

/-- The `models` branch of `dot_describe`. -/
def describeModels (w : World) (rest : List String) : Outcome × List Ev :=
  match rest with
  | [] => (.ret false, [Ev.out "Describe models of what generator?\n"])
  | generator :: modelTokens =>
    if w.has_generator generator then
      let gid := w.get_generator generator
      if modelTokens = [] then
        describeRunSqlQ w (modelsSql "1") gid
      else
        match buildModelnos w gid modelTokens with
        | .inl modelnos =>
          describeRunSqlQ w
            (modelsSql ("modelno IN (" ++
              String.intercalate "," (modelnos.map toString) ++ ")")) gid
        | .inr e => (.ret false, [e])
    else
      (.ret false, [Ev.out ("No such generator: " ++ generator ++ "\n")])

/-- Models `Shell.dot_describe`: dispatch on the case-folded first token. -/
def Shell.dot_describe (w : World) (line : String) : Outcome × List Ev :=
  match pySplit line with
  | [] => (.ret false, [Ev.out "Describe what, pray tell?\n"])
  | t0 :: rest =>
    if casefold t0 = "table" ∨ casefold t0 = "tables" then
      describeTables w rest
    else if casefold t0 = "generator" ∨ casefold t0 = "generators" then
      describeGenerators w rest
    else if casefold t0 = "columns" then
      describeColumns w rest
    else if casefold t0 = "models" then
      describeModels w rest
    else
      (.ret false,
       [Ev.out ("I don\x27t know what a " ++ pyRepr t0 ++ " is.\n")])

/-! Line dispatch: Python 2.7 `cmd.Cmd.parseline` / `onecmd` / `emptyline`,
specialized to this `Shell` instance (`identchars` includes `'.'`, there is
no `do_shell` attribute, the `do_*` attributes are the base class's
`do_help` plus one `do_.name` per installed command, and `precmd`/`postcmd`
are the identity). -/

/-- Models `cmd.Cmd.parseline`: strip the line; empty lines and `!`-lines (with no
`do_shell`) yield no command; a leading `?` rewrites to `help `; otherwise
the command is the maximal `identchars` run and the argument is the
stripped remainder.  Returns (command?, argument, processed line). -/
def parseline (input : String) : Option String × String × String :=
  let t := pyStrip input
  match t.data with
  | [] => (none, "", t)
  | c :: cs =>
    let l2 : List Char := if c = '?' then "help ".data ++ cs else c :: cs
    match l2 with
    | [] => (none, "", ⟨l2⟩)
    | c' :: _ =>
      if c' = '!' then (none, "", ⟨l2⟩)
      else
        (some ⟨l2.takeWhile identchars⟩,
         ⟨stripList (l2.dropWhile identchars)⟩, ⟨l2⟩)

/-- Models `Shell.default`: the fallback for undispatched lines -- end-of-input
handling and the statement accumulator.  `EOF` prints the farewell and
stops the loop with the buffer untouched.  Otherwise the line plus a
newline is appended to `self.bql`; if the completeness oracle accepts the
buffered text, the buffer is re-created empty and the prompt reset *before*
the captured text is executed inside `try/except Exception` (so the reset
survives any failure, and a `KeyboardInterrupt` escapes with the reset
already done); if not, the prompt switches to the continuation prompt. -/
def Shell.default (w : World) (s : Shell) (line : String) : DResult :=
  if line = "EOF" then
    ⟨.ret true, s, [Ev.out "\nMoriturus te querio.\n"]⟩
  else
    let bql := s.bql ++ line ++ "\n"
    if w.bql_string_complete_p bql then
      let s' := { s with bql := "", prompt := def_prompt }
      match w.execute bql with
      | .ok o => ⟨.ret false, s', [Ev.execute bql, Ev.out o]⟩
      | .exn d => ⟨.ret false, s', [Ev.execute bql, Ev.out d]⟩
      | .kbint => ⟨.kbint, s', [Ev.execute bql]⟩
    else
      ⟨.ret false, { s with bql := bql, prompt := bql_prompt }, []⟩

/-- Models `getattr(self, 'do_' + cmd)` plus the call: the base class contributes
`do_help` (its output abstracted as one `Ev.base_help` event -- it only
writes, it touches no session state), each installed name contributes
`do_.name` bound to the matching handler, and any other name is an
`AttributeError` (`none`), which `onecmd` turns into a `default` call. -/
def doFunc (w : World) (s : Shell) (c arg : String) : Option DResult :=
  if c = "help" then some ⟨.ret false, s, [Ev.base_help arg]⟩
  else if c = ".codebook" then
    some (let p := Shell.dot_codebook w arg; ⟨p.1, s, p.2⟩)
  else if c = ".csv" then
    some (let p := Shell.dot_csv w arg; ⟨p.1, s, p.2⟩)
  else if c = ".describe" then
    some (let p := Shell.dot_describe w arg; ⟨p.1, s, p.2⟩)
  else if c = ".help" then
    some ⟨.ret false, s, Shell.dot_help s.cmds arg⟩
  else if c = ".loadmodels" then
    some (let p := Shell.dot_loadmodels w arg; ⟨p.1, s, p.2⟩)
  else if c = ".python" then
    some (let p := Shell.dot_python w arg; ⟨p.1, s, p.2⟩)
  else if c = ".sql" then
    some (let p := Shell.dot_sql w arg; ⟨p.1, s, p.2⟩)
  else if c = ".trace" then
    some (let p := Shell.dot_trace s arg; ⟨.ret false, p.1, p.2⟩)
  else if c = ".untrace" then
    some (let p := Shell.dot_untrace s arg; ⟨.ret false, p.1, p.2⟩)
  else none

/-- Models `cmd.Cmd.onecmd` minus the `emptyline` repeat (used as the body of the
repeat itself, which cannot recurse again: `lastcmd` is always a stripped
non-empty line or empty). -/
def Shell.onecmdCore (w : World) (s : Shell) (line : String) : DResult :=
  match parseline line with
  | (none, _, l) =>
    if l = "" then ⟨.ret false, s, []⟩
    else Shell.default w s l
  | (some c, arg, l) =>
    let s' := { s with lastcmd := if l = "EOF" then "" else l }
    if c = "" then Shell.default w s' l
    else
      match doFunc w s' c arg with
      | some r => r
      | none => Shell.default w s' l

/-- Models `cmd.Cmd.onecmd`: parse, handle blank lines via `emptyline` (which
repeats `lastcmd` when set and otherwise does nothing), record `lastcmd`
(cleared on `EOF`), then dispatch to the matching `do_` attribute or to
`default`. -/
def Shell.onecmd (w : World) (s : Shell) (line : String) : DResult :=
  match parseline line with
  | (none, _, l) =>
    if l = "" then
      if s.lastcmd = "" then ⟨.ret false, s, []⟩
      else Shell.onecmdCore w s s.lastcmd
    else Shell.default w s l
  | (some c, arg, l) =>
    let s' := { s with lastcmd := if l = "EOF" then "" else l }
    if c = "" then Shell.default w s' l
    else
      match doFunc w s' c arg with
      | some r => r
      | none => Shell.default w s' l

/-! The read-eval loop. -/

/-- One observable read: either a line arrives (an `EOFError` on the read
surfaces as the line `EOF`, exactly like typing it), or a
`KeyboardInterrupt` hits while the loop is blocked on the read. -/
inductive Input where
  | line (s : String)
  | kbint
  deriving DecidableEq, Repr

/-- How a (finite) scripted session ends: still waiting for input, cleanly
finished (a dispatched line returned a true stop flag), or killed by an
ordinary exception that escaped `Shell.cmdloop`. -/
inductive RunStatus where
  | running
  | finished
  | crashed (diag : String)
  deriving DecidableEq, Repr

structure RunResult where
  state : Shell
  evs : List Ev
  status : RunStatus
  deriving DecidableEq, Repr

/-- Models `Shell.cmdloop`'s steady state over a script of reads: the `while True:
try: cmd.Cmd.cmdloop(...) except KeyboardInterrupt: write('^C\n');
continue` wrapper around the base class's read/`onecmd` loop.  The
`except KeyboardInterrupt` wraps the *whole* inner loop, so it absorbs an
interrupt whether it was raised at the blocked read or propagated out of a
dispatched line's execution; an ordinary exception escaping a dispatch is
not caught anywhere and kills the session. -/
def runInputs (w : World) : Shell → List Input → RunResult
  | s, [] => ⟨s, [], .running⟩
  | s, .kbint :: rest =>
    let r := runInputs w s rest
    ⟨r.state, Ev.out "^C\n" :: r.evs, r.status⟩
  | s, .line l :: rest =>
    match Shell.onecmd w s l with
    | ⟨.ret true, s', evs⟩ => ⟨s', evs, .finished⟩
    | ⟨.ret false, s', evs⟩ =>
      let r := runInputs w s' rest
      ⟨r.state, evs ++ r.evs, r.status⟩
    | ⟨.kbint, s', evs⟩ =>
      let r := runInputs w s' rest
      ⟨r.state, evs ++ Ev.out "^C\n" :: r.evs, r.status⟩
    | ⟨.exc d, s', evs⟩ => ⟨s', evs, .crashed d⟩

/-- Models `Shell.cmdloop` from the start: the two welcome lines, then the loop. -/
def Shell.cmdloop (w : World) (s : Shell) (inputs : List Input) : RunResult :=
  let r := runInputs w s inputs
  ⟨r.state,
   Ev.out "Welcome to the Bayeslite shell.\n"
     :: Ev.out "Type `.help\x27 for help.\n" :: r.evs,
   r.status⟩

/-! Derived notions the verification statements are phrased over. -/

/-- Feeding a script of lines straight to the statement accumulator
(`Shell.default`), as the dispatch loop does for every line it cannot
resolve as a command: thread the state, collect the events. -/
def feed (w : World) : Shell → List String → Shell × List Ev
  | s, [] => (s, [])
  | s, l :: rest =>
    let r := Shell.default w s l
    let r2 := feed w r.state rest
    (r2.1, r.evs ++ r2.2)

/-- The buffered text a sequence of appended lines produces: each line
followed by the newline `default` writes after it. -/
def glue : List String → String
  | [] => ""
  | l :: rest => l ++ "\n" ++ glue rest

/-- Select statement-executor invocations (`self._bdb.execute(bql)`) and
their argument text. -/
def execOf : Ev → Option String
  | .execute q => some q
  | _ => none

/-- Select trace subscribe/unsubscribe calls to the collaborator. -/
def isTraceEv : Ev → Bool
  | .trace_on => true
  | .trace_off => true
  | .sql_trace_on => true
  | .sql_trace_off => true
  | _ => false

/-- A concrete quiet world: the completeness oracle rejects everything and
every collaborator call returns silently. -/
def W0 : World :=
  { bql_string_complete_p := fun _ => false
    execute := fun _ => .ok ""
    sql_execute := fun _ => .ok ""
    py_eval := fun _ => .ok ""
    read_csv := fun _ _ => .ok ""
    load_codebook := fun _ _ => .ok ""
    load_models := fun _ _ _ => .ok ""
    has_table := fun _ => false
    has_generator := fun _ => false
    get_generator := fun _ => 0
    generator_has_model := fun _ _ => false
    execute_q := fun _ _ => .ok ""
    sql_execute_q := fun _ _ => .ok ""
    guarantee_columns := fun _ => .ok "" }

/-- A world whose completeness oracle accepts everything and whose
statement executor is hit by a `KeyboardInterrupt`. -/
def W1 : World :=
  { W0 with bql_string_complete_p := fun _ => true,
            execute := fun _ => .kbint }

/-- As `W1`, but the statement executor raises an ordinary exception whose
formatted traceback is `"DIAG"`. -/
def W1e : World :=
  { W1 with execute := fun _ => .exn "DIAG" }

/-- A world whose completeness oracle accepts exactly the two-line
statement `a\nb\n`. -/
def W2 : World :=
  { W0 with bql_string_complete_p := fun q => q == "a\nb\n" }

/-- The prompts a session can actually be showing. -/
def promptOk (s : Shell) : Prop :=
  s.prompt = def_prompt ∨ s.prompt = bql_prompt

/-- The command names that resolve to a `do_` attribute of the constructed
shell, with their dot: one per name `Shell.__init__` installs.  (Equals
`initCmds.map ("." ++ .)`, see `registeredDotted_eq`.) -/
def registeredDotted : List String :=
  [".codebook", ".csv", ".describe", ".help", ".loadmodels", ".python",
   ".sql", ".trace", ".untrace"]

theorem registeredDotted_eq :
    registeredDotted = initCmds.map (fun n => "." ++ n) := by decide

theorem installAll_initCmdList : installAll [] initCmdList = some initCmdList := by
  decide

theorem initCmds_eq : initCmds = initCmdList := by decide

/-- A command string that is neither `help` nor a registered dotted name
has no `do_` attribute: `getattr` raises `AttributeError`. -/
theorem doFunc_none (w : World) (s : Shell) (c arg : String)
    (hh : c ≠ "help") (h : c ∉ registeredDotted) :
    doFunc w s c arg = none := by
  simp only [registeredDotted, List.mem_cons, List.not_mem_nil, or_false,
    not_or] at h
  obtain ⟨h1, h2, h3, h4, h5, h6, h7, h8, h9⟩ := h
  unfold doFunc
  rw [if_neg hh, if_neg h2, if_neg h3, if_neg h4, if_neg h5, if_neg h6,
    if_neg h7, if_neg h8, if_neg h1, if_neg h9]

/-- An appended line that leaves the buffer incomplete: the accumulator
grows and the continuation prompt is shown, nothing else happens. -/
theorem default_incomplete (w : World) (s : Shell) (line : String)
    (hline : line ≠ "EOF")
    (hc : w.bql_string_complete_p (s.bql ++ line ++ "\n") = false) :
    Shell.default w s line =
      ⟨.ret false,
       { s with bql := s.bql ++ line ++ "\n", prompt := bql_prompt }, []⟩ := by
  unfold Shell.default
  rw [if_neg hline]
  simp only [hc, Bool.false_eq_true, if_false]

/-- C1 counterexample: the line `.frobnicate` begins with the meta-command
sentinel and its command name is unregistered, yet dispatching it appends
it to the statement accumulator's pending buffer and writes nothing at all
-- no "no such command" report.  (`getattr(self, 'do_.frobnicate')` raises
`AttributeError`, and `cmd.Cmd.onecmd` then calls `Shell.default`, which
has no sentinel check.)  This refutes the claim as stated. -/
theorem C1_counterexample :
    (Shell.onecmd W0 initShell ".frobnicate").state.bql = ".frobnicate\n" ∧
    (Shell.onecmd W0 initShell ".frobnicate").evs = [] ∧
    (Shell.onecmd W0 initShell ".frobnicate").res = .ret false :=
  ⟨rfl, rfl, rfl⟩

/-- C1 (amended): a line whose stripped text begins with the sentinel `.`
but whose command name (the maximal identifier-character run) is not
registered is routed to the `default` handler: it is appended, with a
newline, to the statement accumulator's pending buffer exactly like
ordinary statement text (here under the hypothesis that the grown buffer
is still incomplete), no message of any kind is written, and the loop
continues. -/
theorem C1_theorem (w : World) (s : Shell) (line : String)
    (hdot : (pyStrip line).data.head? = some '.')
    (hreg : (⟨(pyStrip line).data.takeWhile identchars⟩ : String)
      ∉ registeredDotted)
    (hinc : w.bql_string_complete_p (s.bql ++ pyStrip line ++ "\n") = false) :
    Shell.onecmd w s line =
      ⟨.ret false,
       { s with bql := s.bql ++ pyStrip line ++ "\n", prompt := bql_prompt,
                lastcmd := pyStrip line }, []⟩ := by
  unfold Shell.onecmd parseline
  cases ht : pyStrip line with
  | mk tdata =>
    rw [ht] at hdot hreg hinc
    cases tdata with
    | nil => simp at hdot
    | cons c0 cs =>
      simp only [List.head?_cons, Option.some.injEq] at hdot
      subst hdot
      have h7 : ('.' = '?') = False := by simp
      have h8 : ('.' = '!') = False := by simp
      simp only [h7, if_false, eq_self_iff_true]
      rw [if_neg (by simp : ¬ ('.' = '!'))]
      have hid : identchars '.' = true := by decide
      have hcmd : (⟨('.' :: cs).takeWhile identchars⟩ : String) =
          (⟨'.' :: cs.takeWhile identchars⟩ : String) := by
        simp [List.takeWhile_cons, hid]
      have hch : ((⟨'.' :: cs.takeWhile identchars⟩ : String) = "help") = False := by
        simp only [eq_iff_iff, iff_false]
        intro hcon
        have := congrArg String.data hcon
        simp at this
      have hne : ((⟨'.' :: cs⟩ : String) = "EOF") = False := by
        simp only [eq_iff_iff, iff_false]
        intro hcon
        have := congrArg String.data hcon
        simp at this
      have hcne : ((⟨'.' :: cs.takeWhile identchars⟩ : String) = "") = False := by
        simp only [eq_iff_iff, iff_false]
        intro hcon
        have := congrArg String.data hcon
        simp at this
      rw [hcmd] at hreg ⊢
      dsimp only
      simp only [hne, hcne, if_false]
      rw [doFunc_none w _ _ _ (by simp [hch]) hreg]
      dsimp only
      exact default_incomplete w _ _ (by simp [hne]) hinc

/-- C1 witness: the amended statement at the concrete line `.frobnicate`
against the constructed shell and a rejecting completeness oracle. -/
theorem C1_witness :
    ((pyStrip ".frobnicate").data.head? = some '.') ∧
    ((⟨(pyStrip ".frobnicate").data.takeWhile identchars⟩ : String)
      ∉ registeredDotted) ∧
    Shell.onecmd W0 initShell ".frobnicate" =
      ⟨.ret false,
       { initShell with
           bql := initShell.bql ++ pyStrip ".frobnicate" ++ "\n",
           prompt := bql_prompt, lastcmd := pyStrip ".frobnicate" }, []⟩ :=
  ⟨by decide, by decide,
   C1_theorem W0 initShell ".frobnicate" (by decide) (by decide) (by decide)⟩

/-- C2: once an appended line makes the completeness oracle accept the
buffered text, the statement executor is invoked with exactly that full
buffered text (the first collaborator event), and -- whatever the
execution's outcome, success, ordinary failure, or interrupt -- the buffer
is left empty and the prompt reset to the default. -/
theorem C2_theorem (w : World) (s : Shell) (line : String)
    (hline : line ≠ "EOF")
    (hc : w.bql_string_complete_p (s.bql ++ line ++ "\n") = true) :
    (Shell.default w s line).state.bql = "" ∧
    (Shell.default w s line).state.prompt = def_prompt ∧
    (Shell.default w s line).evs.head? =
      some (Ev.execute (s.bql ++ line ++ "\n")) := by
  unfold Shell.default
  rw [if_neg hline]
  simp only [hc, if_true]
  cases w.execute (s.bql ++ line ++ "\n") <;> simp

/-- C2 witness: the completing line `x` under an oracle that accepts it,
with the execution hit by an interrupt (the harshest outcome). -/
theorem C2_witness :
    ("x" ≠ "EOF") ∧
    ((Shell.default W1 initShell "x").state.bql = "" ∧
     (Shell.default W1 initShell "x").state.prompt = def_prompt ∧
     (Shell.default W1 initShell "x").evs.head? =
       some (Ev.execute (initShell.bql ++ "x" ++ "\n"))) :=
  ⟨by decide, C2_theorem W1 initShell "x" (by decide) (by decide)⟩

/-- C3 counterexample: with the statement executor hit by a cancellation
signal (`KeyboardInterrupt`), the session prints the `^C` acknowledgment
and keeps running -- the signal IS specially handled by the core
(`Shell.cmdloop`'s handler wraps execution too), and no diagnostic is
printed; whereas an ordinary execution failure at the same input prints
the diagnostic (`DIAG`) per the error-containment policy.  The two event
streams differ, refuting the claim that a cancellation during execution
"propagates as an ordinary execution failure". -/
theorem C3_counterexample :
    (runInputs W1 initShell [Input.line "select 1"]).evs =
      [Ev.execute "select 1\n", Ev.out "^C\n"] ∧
    (runInputs W1 initShell [Input.line "select 1"]).status = .running ∧
    (runInputs W1e initShell [Input.line "select 1"]).evs =
      [Ev.execute "select 1\n", Ev.out "DIAG"] :=
  ⟨rfl, rfl, rfl⟩

/-- C3 (amended): a cancellation signal while blocked on the input read is
absorbed -- `^C` is printed and the loop restarts (first conjunct); and a
cancellation signal propagating out of statement or handler execution is
*also* absorbed by the same loop-level handler -- `^C` printed, loop
restarted, no diagnostic, never fatal -- rather than being handled as an
ordinary execution failure (second conjunct). -/
theorem C3_theorem :
    (∀ (w : World) (s : Shell) (rest : List Input),
      runInputs w s (Input.kbint :: rest) =
        ⟨(runInputs w s rest).state,
         Ev.out "^C\n" :: (runInputs w s rest).evs,
         (runInputs w s rest).status⟩) ∧
    (∀ (w : World) (s : Shell) (l : String) (rest : List Input)
       (s' : Shell) (evs : List Ev),
      Shell.onecmd w s l = ⟨.kbint, s', evs⟩ →
      runInputs w s (Input.line l :: rest) =
        ⟨(runInputs w s' rest).state,
         evs ++ Ev.out "^C\n" :: (runInputs w s' rest).evs,
         (runInputs w s' rest).status⟩) := by
  constructor
  · intro w s rest
    rfl
  · intro w s l rest s' evs h
    simp only [runInputs]
    rw [h]

/-- C3 witness: the amended statement's execution-interrupt conjunct at the
concrete input `select 1` under the interrupting world. -/
theorem C3_witness :
    (Shell.onecmd W1 initShell "select 1" =
      ⟨.kbint, { initShell with lastcmd := "select 1" },
       [Ev.execute "select 1\n"]⟩) ∧
    runInputs W1 initShell [Input.line "select 1"] =
      ⟨(runInputs W1 { initShell with lastcmd := "select 1" } []).state,
       [Ev.execute "select 1\n"] ++ Ev.out "^C\n" ::
         (runInputs W1 { initShell with lastcmd := "select 1" } []).evs,
       (runInputs W1 { initShell with lastcmd := "select 1" } []).status⟩ :=
  ⟨rfl, C3_theorem.2 W1 initShell "select 1" [] _ _ rfl⟩

/-- C5: a read that returns the `EOF` sentinel line -- whatever the session
state, in particular mid-accumulation with a non-empty pending buffer --
terminates the loop, the only output being the farewell message; the
pending buffer is left untouched (only `lastcmd` is cleared, as
`cmd.Cmd.onecmd` does on `EOF`) and no executor call happens. -/
theorem C5_theorem (w : World) (s : Shell) (rest : List Input) :
    runInputs w s (Input.line "EOF" :: rest) =
      ⟨{ s with lastcmd := "" }, [Ev.out "\nMoriturus te querio.\n"],
       .finished⟩ := rfl

/-- C7: an ordinary failure while executing a completed statement prints
the formatted traceback, returns control to the loop (stop flag `False`),
and leaves the buffer empty with the default -- not continuation --
prompt. -/
theorem C7_theorem (w : World) (s : Shell) (line d : String)
    (hline : line ≠ "EOF")
    (hc : w.bql_string_complete_p (s.bql ++ line ++ "\n") = true)
    (hx : w.execute (s.bql ++ line ++ "\n") = .exn d) :
    Shell.default w s line =
      ⟨.ret false, { s with bql := "", prompt := def_prompt },
       [Ev.execute (s.bql ++ line ++ "\n"), Ev.out d]⟩ := by
  unfold Shell.default
  rw [if_neg hline]
  simp only [hc, if_true, hx]

/-- C7 witness: a failing executor (`DIAG` traceback) at the line `x`. -/
theorem C7_witness :
    ("x" ≠ "EOF") ∧
    Shell.default W1e initShell "x" =
      ⟨.ret false, { initShell with bql := "", prompt := def_prompt },
       [Ev.execute (initShell.bql ++ "x" ++ "\n"), Ev.out "DIAG"]⟩ :=
  ⟨by decide, C7_theorem W1e initShell "x" "DIAG" (by decide) (by decide)
    (by decide)⟩

/-- C6: the command sequence `.trace sql`, `.trace sql`, `.untrace sql`,
`.untrace sql` makes exactly one subscribe and one unsubscribe call to the
collaborator (the duplicate toggles are no-ops on the flag), and likewise
for `bql`; the flags end as they began. -/
theorem C6_theorem :
    ((runInputs W0 initShell
        [Input.line ".trace sql", Input.line ".trace sql",
         Input.line ".untrace sql", Input.line ".untrace sql"]).evs.filter
        isTraceEv = [Ev.sql_trace_on, Ev.sql_trace_off]) ∧
    ((runInputs W0 initShell
        [Input.line ".trace bql", Input.line ".trace bql",
         Input.line ".untrace bql", Input.line ".untrace bql"]).evs.filter
        isTraceEv = [Ev.trace_on, Ev.trace_off]) ∧
    (runInputs W0 initShell
        [Input.line ".trace sql", Input.line ".trace sql",
         Input.line ".untrace sql", Input.line ".untrace sql"]).state.sql_traced
      = false ∧
    (runInputs W0 initShell
        [Input.line ".trace bql", Input.line ".trace bql",
         Input.line ".untrace bql", Input.line ".untrace bql"]).state.traced
      = false :=
  ⟨rfl, rfl, rfl, rfl⟩

/-- C10: `.trace` (resp. `.untrace`) with any argument other than exactly
`bql` or `sql` only writes the one-line query message and leaves the whole
session state -- both flags included -- unchanged, with no collaborator
subscription calls. -/
theorem C10_theorem (s : Shell) (arg : String)
    (h1 : arg ≠ "bql") (h2 : arg ≠ "sql") :
    Shell.dot_trace s arg = (s, [Ev.out "Trace what?\n"]) ∧
    Shell.dot_untrace s arg = (s, [Ev.out "Untrace what?\n"]) := by
  unfold Shell.dot_trace Shell.dot_untrace
  rw [if_neg h1, if_neg h2, if_neg h1, if_neg h2]
  exact ⟨rfl, rfl⟩

/-- C10 witness: the empty argument (a bare `.trace` / `.untrace`). -/
theorem C10_witness :
    ("" ≠ "bql") ∧ ("" ≠ "sql") ∧
    (Shell.dot_trace initShell "" = (initShell, [Ev.out "Trace what?\n"]) ∧
     Shell.dot_untrace initShell "" =
       (initShell, [Ev.out "Untrace what?\n"])) :=
  ⟨by decide, by decide, C10_theorem initShell "" (by decide) (by decide)⟩

/-- A successful installation run appends the names in order: the
registry's list is the install sequence itself (which thus had no
duplicates). -/
theorem installAll_some :
    ∀ (names acc cs : List String), installAll acc names = some cs →
      cs = acc ++ names := by
  intro names
  induction names with
  | nil =>
    intro acc cs h
    simp only [installAll, Option.some.injEq] at h
    simp [h]
  | cons n rest ih =>
    intro acc cs h
    rw [installAll] at h
    unfold Shell._installcmd at h
    by_cases hmem : n ∈ acc
    · rw [if_pos hmem] at h
      simp at h
    · rw [if_neg hmem] at h
      have h' : installAll (acc ++ [n]) rest = some cs := h
      have := ih (acc ++ [n]) cs h'
      simp [this]

/-- C8: the `.help` listing of the constructed shell is strictly sorted by
code-point order (hence duplicate-free), is a permutation of the
registered-name set (hence lists every registered command exactly once), is
exactly what `dot_help` writes, and is independent of the order in which
the commands were installed: any permuted install sequence that builds a
registry yields the identical sorted listing. -/
theorem C8_theorem :
    List.Sorted (fun a b : String => a.data < b.data)
      (sortedCmdNames initShell.cmds) ∧
    (sortedCmdNames initShell.cmds).Perm initShell.cmds ∧
    (Shell.dot_help initShell.cmds "" =
      ((sortedCmdNames initShell.cmds).map
        (fun c => Ev.out (helpListLine (maxPad initShell.cmds) c)))
        ++ [Ev.out helpFooter]) ∧
    (∀ (order cs : List String), order.Perm initCmdList →
      installAll [] order = some cs →
      sortedCmdNames cs = sortedCmdNames initShell.cmds) := by
  refine ⟨by decide, by decide, rfl, ?_⟩
  intro order cs hperm hinst
  have hcs : cs = order := by simpa using installAll_some order [] cs hinst
  rw [hcs]
  have h1 : List.Perm (sortedCmdNames order) order :=
    List.perm_insertionSort pyStrLe order
  have h2 : List.Perm initShell.cmds (sortedCmdNames initShell.cmds) :=
    (List.perm_insertionSort pyStrLe initShell.cmds).symm
  have h3 : initShell.cmds = initCmdList := initCmds_eq
  exact List.eq_of_perm_of_sorted (r := pyStrLe)
    (h1.trans (hperm.trans (h3 ▸ h2)))
    (List.sorted_insertionSort pyStrLe order)
    (List.sorted_insertionSort pyStrLe initShell.cmds)

/-- C8 witness: installing the commands in reverse declaration order yields
the same sorted help listing. -/
theorem C8_witness :
    (initCmdList.reverse.Perm initCmdList) ∧
    (installAll [] initCmdList.reverse = some initCmdList.reverse) ∧
    sortedCmdNames initCmdList.reverse = sortedCmdNames initShell.cmds :=
  ⟨by decide, by decide,
   C8_theorem.2.2.2 initCmdList.reverse initCmdList.reverse (by decide)
     (by decide)⟩

/-- An appended line that completes the buffer: whatever the execution
outcome, the state is reset and the executor was called once with the full
buffered text. -/
theorem default_complete (w : World) (s : Shell) (line : String)
    (hline : line ≠ "EOF")
    (hc : w.bql_string_complete_p (s.bql ++ line ++ "\n") = true) :
    (Shell.default w s line).state = { s with bql := "", prompt := def_prompt } ∧
    (Shell.default w s line).evs.filterMap execOf =
      [s.bql ++ line ++ "\n"] := by
  unfold Shell.default
  rw [if_neg hline]
  simp only [hc, if_true]
  cases w.execute (s.bql ++ line ++ "\n") <;> simp [execOf]

theorem glue_append (xs ys : List String) :
    glue (xs ++ ys) = glue xs ++ glue ys := by
  induction xs with
  | nil => simp [glue]
  | cons l rest ih => simp [glue, ih, String.append_assoc]

theorem glue_ne_nil (l : String) (xs : List String) : glue (l :: xs) ≠ "" := by
  intro h
  have hd := congrArg String.data h
  simp [glue, String.data_append] at hd

theorem feed_append (w : World) (xs ys : List String) :
    ∀ s, feed w s (xs ++ ys) =
      ((feed w (feed w s xs).1 ys).1,
       (feed w s xs).2 ++ (feed w (feed w s xs).1 ys).2) := by
  induction xs with
  | nil => intro s; simp [feed]
  | cons l rest ih =>
    intro s
    simp [feed, ih, List.append_assoc]

/-- Feeding lines none of which completes the buffer: the accumulator grows
to the concatenation, no events are emitted, and the continuation prompt is
shown (once at least one line was fed). -/
theorem feed_incomplete (w : World) :
    ∀ (rest done : List String) (s : Shell), s.bql = glue done →
      (∀ l ∈ rest, l ≠ "EOF") →
      (∀ k, 0 < k → k ≤ rest.length →
        w.bql_string_complete_p (glue (done ++ rest.take k)) = false) →
      feed w s rest =
        ({ s with bql := glue (done ++ rest),
                  prompt := if rest = [] then s.prompt else bql_prompt },
         []) := by
  intro rest
  induction rest with
  | nil =>
    intro done s hb _ _
    simp [feed, List.append_nil, ← hb]
  | cons l rest' ih =>
    intro done s hb hne hmid
    have hlne : l ≠ "EOF" := hne l (by simp)
    have hglue1 : glue (done ++ [l]) = s.bql ++ l ++ "\n" := by
      rw [glue_append, hb]
      simp [glue, String.append_assoc]
    have hc1 : w.bql_string_complete_p (s.bql ++ l ++ "\n") = false := by
      rw [← hglue1]
      have h := hmid 1 (by omega) (by simp)
      simpa [List.take_succ_cons] using h
    have hstep := default_incomplete w s l hlne hc1
    have hne' : ∀ x ∈ rest', x ≠ "EOF" := fun x hx => hne x (by simp [hx])
    have hmid' : ∀ k, 0 < k → k ≤ rest'.length →
        w.bql_string_complete_p (glue ((done ++ [l]) ++ rest'.take k))
          = false := by
      intro k hk hklen
      have h := hmid (k + 1) (by omega) (by simp; omega)
      simpa [List.take_succ_cons, List.append_assoc] using h
    have hrec := ih (done ++ [l])
      { s with bql := s.bql ++ l ++ "\n", prompt := bql_prompt }
      hglue1.symm hne' hmid'
    simp only [feed, hstep, hrec]
    by_cases hre : rest' = []
    · subst hre
      simp [List.append_nil, hglue1]
    · simp [List.append_assoc]

/-- C4: feeding an Idle accumulator a non-empty line sequence none of whose
proper prefixes the completeness oracle accepts but whose full
concatenation it does: after every proper non-empty prefix the session is
Accumulating (buffer = the concatenation so far, which is non-empty, and
the continuation prompt is shown); the statement executor is invoked
exactly once, with exactly the full concatenation; and afterwards the
session is Idle again (buffer empty, default prompt). -/
theorem C4_theorem (w : World) (s : Shell) (lines : List String)
    (hidle : s.bql = "") (_hprompt : s.prompt = def_prompt)
    (hnn : lines ≠ [])
    (hne : ∀ l ∈ lines, l ≠ "EOF")
    (hmid : ∀ k, 0 < k → k < lines.length →
      w.bql_string_complete_p (glue (lines.take k)) = false)
    (hfull : w.bql_string_complete_p (glue lines) = true) :
    ((feed w s lines).1.bql = "" ∧ (feed w s lines).1.prompt = def_prompt) ∧
    (feed w s lines).2.filterMap execOf = [glue lines] ∧
    (∀ k, 0 < k → k < lines.length →
      (feed w s (lines.take k)).1.bql = glue (lines.take k) ∧
      (feed w s (lines.take k)).1.prompt = bql_prompt ∧
      glue (lines.take k) ≠ "") := by
  obtain ⟨ys, y, rfl⟩ : ∃ ys y, lines = ys ++ [y] := by
    rcases List.eq_nil_or_concat lines with h | ⟨L, b, h⟩
    · exact absurd h hnn
    · exact ⟨L, b, by simpa [List.concat_eq_append] using h⟩
  have hyne : y ≠ "EOF" := hne y (by simp)
  have h0 : s.bql = glue ([] : List String) := by simpa [glue] using hidle
  have hysfeed : feed w s ys =
      ({ s with bql := glue ys,
                prompt := if ys = [] then s.prompt else bql_prompt }, []) := by
    have hm : ∀ k, 0 < k → k ≤ ys.length →
        w.bql_string_complete_p (glue (([] : List String) ++ ys.take k))
          = false := by
      intro k hk hkl
      have h := hmid k hk (by simp; omega)
      rw [List.take_append_of_le_length hkl] at h
      simpa using h
    have hne2 : ∀ l ∈ ys, l ≠ "EOF" := fun l hl => hne l (by simp [hl])
    simpa using feed_incomplete w ys [] s h0 hne2 hm
  have hbufeq : glue ys ++ y ++ "\n" = glue (ys ++ [y]) := by
    rw [glue_append]
    simp [glue, String.append_assoc]
  have hcy : w.bql_string_complete_p (glue ys ++ y ++ "\n") = true := by
    rw [hbufeq]
    exact hfull
  have hlast := default_complete w
    { s with bql := glue ys, prompt := if ys = [] then s.prompt else bql_prompt }
    y hyne (by simpa using hcy)
  have hfa := feed_append w ys [y] s
  rw [hysfeed] at hfa
  have hfy : ∀ t : Shell, feed w t [y] =
      ((Shell.default w t y).state, (Shell.default w t y).evs ++ []) := by
    intro t
    simp [feed]
  rw [hfy] at hfa
  refine ⟨⟨?_, ?_⟩, ?_, ?_⟩
  · rw [hfa]
    simp [hlast.1]
  · rw [hfa]
    simp [hlast.1]
  · rw [hfa]
    simp only [List.nil_append, List.filterMap_append, List.filterMap_nil,
      List.append_nil]
    rw [hlast.2]
    simp [hbufeq]
  · intro k hk hkl
    have hkle : k ≤ ys.length := by
      simp only [List.length_append, List.length_singleton] at hkl
      omega
    rw [List.take_append_of_le_length hkle]
    have hne3 : ∀ l ∈ ys.take k, l ≠ "EOF" := fun l hl =>
      hne l (by simp [List.take_subset k ys hl])
    have hm2 : ∀ j, 0 < j → j ≤ (ys.take k).length →
        w.bql_string_complete_p
          (glue (([] : List String) ++ (ys.take k).take j)) = false := by
      intro j hj hjlen
      rw [List.length_take] at hjlen
      have hjk : j ≤ k := le_trans hjlen (min_le_left _ _)
      have hjys : j ≤ ys.length := le_trans hjlen (min_le_right _ _)
      have htt : (ys.take k).take j = ys.take j := by
        rw [List.take_take]
        congr 1
        omega
      have h := hmid j hj (by simp; omega)
      rw [List.take_append_of_le_length hjys] at h
      simpa [htt] using h
    have hfik := feed_incomplete w (ys.take k) [] s h0 hne3 hm2
    have htkne : ys.take k ≠ [] := by
      intro hcon
      have hlen := congrArg List.length hcon
      rw [List.length_take] at hlen
      simp only [List.length_nil] at hlen
      omega
    rw [if_neg htkne] at hfik
    simp only [List.nil_append] at hfik
    rw [hfik]
    refine ⟨by simp, by simp, ?_⟩
    cases hys : ys.take k with
    | nil => exact absurd hys htkne
    | cons a as => exact hys ▸ glue_ne_nil a as

/-- C4 witness: the two-line statement `a`, `b` under the oracle that
accepts exactly `a\nb\n`: one execution with the full concatenation, Idle
afterward, Accumulating after the proper prefix. -/
theorem C4_witness :
    (initShell.bql = "") ∧
    (W2.bql_string_complete_p (glue ["a", "b"]) = true) ∧
    ((feed W2 initShell ["a", "b"]).1.bql = "" ∧
     (feed W2 initShell ["a", "b"]).1.prompt = def_prompt) ∧
    ((feed W2 initShell ["a", "b"]).2.filterMap execOf = [glue ["a", "b"]]) ∧
    ((feed W2 initShell (["a", "b"].take 1)).1.bql = glue (["a", "b"].take 1) ∧
     (feed W2 initShell (["a", "b"].take 1)).1.prompt = bql_prompt ∧
     glue (["a", "b"].take 1) ≠ "") := by
  have h := C4_theorem W2 initShell ["a", "b"] rfl rfl (by decide) (by decide)
    (fun k hk hkl => by
      have hk1 : k = 1 := by
        simp only [List.length_cons, List.length_nil] at hkl
        omega
      subst hk1
      decide)
    (by decide)
  exact ⟨rfl, by decide, h.1, h.2.1, h.2.2 1 (by decide) (by decide)⟩

theorem dot_trace_prompt (s : Shell) (arg : String) :
    (Shell.dot_trace s arg).1.prompt = s.prompt := by
  unfold Shell.dot_trace
  split_ifs <;> rfl

theorem dot_untrace_prompt (s : Shell) (arg : String) :
    (Shell.dot_untrace s arg).1.prompt = s.prompt := by
  unfold Shell.dot_untrace
  split_ifs <;> rfl

/-- The accumulator is the only writer of the prompt, and it only ever
writes the default or the BQL continuation prompt. -/
theorem default_prompt (w : World) (s : Shell) (l : String) :
    (Shell.default w s l).state.prompt = s.prompt ∨
    (Shell.default w s l).state.prompt = def_prompt ∨
    (Shell.default w s l).state.prompt = bql_prompt := by
  unfold Shell.default
  by_cases h1 : l = "EOF"
  · rw [if_pos h1]
    left
    rfl
  · rw [if_neg h1]
    by_cases h2 : w.bql_string_complete_p (s.bql ++ l ++ "\n") = true
    · simp only [h2, if_true]
      cases w.execute (s.bql ++ l ++ "\n") <;> (right; left; rfl)
    · have h2' : w.bql_string_complete_p (s.bql ++ l ++ "\n") = false := by
        cases hc : w.bql_string_complete_p (s.bql ++ l ++ "\n")
        · rfl
        · exact absurd hc h2
      simp only [h2', Bool.false_eq_true, if_false]
      right
      right
      trivial

/-- No meta-command handler writes the prompt. -/
theorem doFunc_prompt (w : World) (s : Shell) (c a : String) (r : DResult)
    (h : doFunc w s c a = some r) : r.state.prompt = s.prompt := by
  unfold doFunc at h
  by_cases h1 : c = "help"
  · rw [if_pos h1] at h
    obtain rfl := Option.some.inj h
    rfl
  rw [if_neg h1] at h
  by_cases h2 : c = ".codebook"
  · rw [if_pos h2] at h
    obtain rfl := Option.some.inj h
    rfl
  rw [if_neg h2] at h
  by_cases h3 : c = ".csv"
  · rw [if_pos h3] at h
    obtain rfl := Option.some.inj h
    rfl
  rw [if_neg h3] at h
  by_cases h4 : c = ".describe"
  · rw [if_pos h4] at h
    obtain rfl := Option.some.inj h
    rfl
  rw [if_neg h4] at h
  by_cases h5 : c = ".help"
  · rw [if_pos h5] at h
    obtain rfl := Option.some.inj h
    rfl
  rw [if_neg h5] at h
  by_cases h6 : c = ".loadmodels"
  · rw [if_pos h6] at h
    obtain rfl := Option.some.inj h
    rfl
  rw [if_neg h6] at h
  by_cases h7 : c = ".python"
  · rw [if_pos h7] at h
    obtain rfl := Option.some.inj h
    rfl
  rw [if_neg h7] at h
  by_cases h8 : c = ".sql"
  · rw [if_pos h8] at h
    obtain rfl := Option.some.inj h
    rfl
  rw [if_neg h8] at h
  by_cases h9 : c = ".trace"
  · rw [if_pos h9] at h
    obtain rfl := Option.some.inj h
    exact dot_trace_prompt s a
  rw [if_neg h9] at h
  by_cases h10 : c = ".untrace"
  · rw [if_pos h10] at h
    obtain rfl := Option.some.inj h
    exact dot_untrace_prompt s a
  rw [if_neg h10] at h
  exact absurd h (by simp)

theorem promptOk_default (w : World) (s : Shell) (l : String)
    (h : promptOk s) : promptOk (Shell.default w s l).state := by
  unfold promptOk at h ⊢
  rcases default_prompt w s l with h1 | h1 | h1
  · rw [h1]; exact h
  · rw [h1]; left; rfl
  · rw [h1]; right; rfl

theorem promptOk_onecmdCore (w : World) (s : Shell) (l : String)
    (h : promptOk s) : promptOk (Shell.onecmdCore w s l).state := by
  unfold Shell.onecmdCore
  rcases hp : parseline l with ⟨_ | c, arg, pl⟩
  · dsimp only
    by_cases hpl : pl = ""
    · rw [if_pos hpl]
      exact h
    · rw [if_neg hpl]
      exact promptOk_default w s pl h
  · dsimp only
    have hs2 : promptOk { s with lastcmd := if pl = "EOF" then "" else pl } := h
    by_cases hce : c = ""
    · rw [if_pos hce]
      exact promptOk_default w _ pl hs2
    · rw [if_neg hce]
      rcases hd : doFunc w { s with lastcmd := if pl = "EOF" then "" else pl }
          c arg with _ | r
      · exact promptOk_default w _ pl hs2
      · show promptOk r.state
        unfold promptOk
        rw [doFunc_prompt w _ c arg r hd]
        exact hs2

theorem promptOk_onecmd (w : World) (s : Shell) (l : String)
    (h : promptOk s) : promptOk (Shell.onecmd w s l).state := by
  unfold Shell.onecmd
  rcases hp : parseline l with ⟨_ | c, arg, pl⟩
  · dsimp only
    by_cases hpl : pl = ""
    · rw [if_pos hpl]
      by_cases hlc : s.lastcmd = ""
      · rw [if_pos hlc]
        exact h
      · rw [if_neg hlc]
        exact promptOk_onecmdCore w s s.lastcmd h
    · rw [if_neg hpl]
      exact promptOk_default w s pl h
  · dsimp only
    have hs2 : promptOk { s with lastcmd := if pl = "EOF" then "" else pl } := h
    by_cases hce : c = ""
    · rw [if_pos hce]
      exact promptOk_default w _ pl hs2
    · rw [if_neg hce]
      rcases hd : doFunc w { s with lastcmd := if pl = "EOF" then "" else pl }
          c arg with _ | r
      · exact promptOk_default w _ pl hs2
      · show promptOk r.state
        unfold promptOk
        rw [doFunc_prompt w _ c arg r hd]
        exact hs2

theorem promptOk_runInputs (w : World) :
    ∀ (inputs : List Input) (s : Shell), promptOk s →
      promptOk (runInputs w s inputs).state := by
  intro inputs
  induction inputs with
  | nil => intro s h; exact h
  | cons i rest ih =>
    intro s h
    cases i with
    | kbint => exact ih s h
    | line l =>
      have hr := promptOk_onecmd w s l h
      rcases hone : Shell.onecmd w s l with ⟨res, s', evs⟩
      rw [hone] at hr
      cases res with
      | ret stop =>
        cases stop
        · simp only [runInputs, hone]
          exact ih s' hr
        · simp only [runInputs, hone]
          exact hr
      | exc d =>
        simp only [runInputs, hone]
        exact hr
      | kbint =>
        simp only [runInputs, hone]
        exact ih s' hr

/-- C9: in every session state reachable from the constructed shell by any
input script against any collaborator behavior, the prompt is either the
default prompt or the BQL continuation prompt; the declared raw-SQL
continuation prompt and expression-mode prompt are never assigned, hence
never shown. -/
theorem C9_theorem (w : World) (inputs : List Input) :
    ((runInputs w initShell inputs).state.prompt = def_prompt ∨
     (runInputs w initShell inputs).state.prompt = bql_prompt) ∧
    (runInputs w initShell inputs).state.prompt ≠ sql_prompt ∧
    (runInputs w initShell inputs).state.prompt ≠ python_prompt := by
  have h := promptOk_runInputs w inputs initShell (Or.inl rfl)
  unfold promptOk at h
  refine ⟨h, ?_, ?_⟩
  · rcases h with h1 | h1 <;> rw [h1] <;> decide
  · rcases h with h1 | h1 <;> rw [h1] <;> decide

end BayesliteShell
